import Mathlib

/-!
Verification of the native-dependency discovery and multi-format packaging
pipeline in `src/xtask/src/main.rs` (functions `build_plugin`,
`parse_native_libraries`, `build_universal_macos_binary`, `copy_plugin_files`,
`copy_dir_recursive`).

Modelling conventions:
- Paths are strings; path equality is string equality (paths are taken in
  canonical spelling, so `HashSet<PathBuf>` deduplication is string dedup).
- The file system is an oracle `FileSys` of boolean queries plus a directory
  listing; directory listings return full entry paths, as Rust's
  `entry.path()` does.
- External process invocations (cargo, cmake, rustup, lipo) are modelled by a
  `World` oracle providing each invocation's exit status and captured output,
  and the pipeline is a function from `World` to an event trace plus a result.
- Whitespace is modelled by `Char.isWhitespace` (ASCII whitespace), matching
  Rust's `char::is_whitespace` on the ASCII range that toolchain diagnostics
  use.
-/

namespace Xtask

/-- Boolean list-prefix test. -/
def isPrefixList : List Char → List Char → Bool
  | [], _ => true
  | _ :: _, [] => false
  | a :: as, b :: bs => a == b && isPrefixList as bs

/-- Boolean list-infix test: `pat` occurs as a contiguous run in `s`. -/
def isInfixList (pat : List Char) : List Char → Bool
  | [] => isPrefixList pat []
  | s :: rest => isPrefixList pat (s :: rest) || isInfixList pat rest

/-- Substring containment, modelling Rust's `str::contains` with a string
pattern. -/
def containsSubstr (s pat : String) : Bool :=
  isInfixList pat.data s.data

/-- Stop characters for path-token extraction in `parse_native_libraries`:
Rust's `part.find(|c: char| c.is_whitespace() || c == backtick)`. The backtick
character is written via its code point. -/
def isStopChar (c : Char) : Bool :=
  c.isWhitespace || c == Char.ofNat 96

/-- Double-quote trimming, modelling Rust's `str::trim_matches('"')`: all
leading and all trailing quote characters are removed. -/
def trimQuotes (cs : List Char) : List Char :=
  ((cs.dropWhile (· == '"')).reverse.dropWhile (· == '"')).reverse

/-- Extraction of one path token from the text following a `-L native=`
marker: the token runs up to the first whitespace or backtick, and surrounding
double quotes are stripped (main.rs lines 273-277). -/
def cleanPath (part : List Char) : String :=
  String.mk (trimQuotes (part.takeWhile (fun c => !isStopChar c)))

/-- Fuel-driven splitter on character lists; with fuel at least the length of
the input this splits on every non-overlapping occurrence of `sep`, left to
right, exactly as Rust's `str::split` with a non-empty string pattern. -/
def splitGo (sep : List Char) : Nat → List Char → List (List Char)
  | _, [] => [[]]
  | 0, s => [s]
  | fuel + 1, c :: rest =>
    if isPrefixList sep (c :: rest) then
      [] :: splitGo sep fuel ((c :: rest).drop sep.length)
    else
      match splitGo sep fuel rest with
      | [] => [[c]]
      | h :: t => (c :: h) :: t

/-- Split of a character list on a non-empty separator, modelling Rust's
`str::split` with a string pattern. -/
def splitOnChars (sep s : List Char) : List (List Char) :=
  splitGo sep s.length s

/-- Hyphen-to-underscore normalization, modelling Rust's
`str::replace('-', "_")` with a single-character pattern and replacement. -/
def replaceDash (cs : List Char) : List Char :=
  cs.map fun c => if c == '-' then '_' else c

/-- Path join with a `/` separator, modelling `Path::join` on the normalized
paths this pipeline constructs. -/
def pjoin (a b : String) : String := a ++ "/" ++ b

/-- Deduplicating insertion into a path list, modelling insertion into a
`HashSet<PathBuf>` (set semantics; insertion order retained for determinism).
-/
def insertPath (p : String) (ps : List String) : List String :=
  if p ∈ ps then ps else ps ++ [p]

/-- Final path component, modelling `Path::file_name` on the entry paths this
pipeline inspects. -/
def fileName (p : String) : String :=
  String.mk (p.data.reverse.takeWhile (· != '/')).reverse

/-- Directory part of a path: everything before the final `/`. -/
def dirPart (p : String) : String :=
  String.mk ((p.data.reverse.dropWhile (· != '/')).drop 1).reverse

/-- Extension of a path, modelling `Path::extension().unwrap_or("")`: the part
of the file name after the last dot, or empty when there is no dot or the only
dot is leading (as for `.gitignore`). -/
def extension (p : String) : String :=
  let f := (fileName p).data
  match f.reverse.dropWhile (· != '.') with
  | [] => ""
  | _ :: rest =>
    if rest.isEmpty then "" else String.mk (f.reverse.takeWhile (· != '.')).reverse

/-- File-system oracle: existence, directory/file tests, and non-recursive
directory listing (full entry paths, as `fs::read_dir` + `entry.path()`). -/
structure FileSys where
  pathExists : String → Bool
  isDir : String → Bool
  isFile : String → Bool
  entries : String → List String

/-- Section marker for the target crate in cargo's verbose diagnostics:
`--crate-name` followed by the crate name with hyphens replaced by
underscores (main.rs line 264). -/
def crateMarker (crateName : String) : String :=
  "--crate-name " ++ String.mk (replaceDash crateName.data)

/-- Search-path marker in cargo's verbose diagnostics. -/
def nativeMarker : String := "-L native="

/-- Existing path tokens extracted from one diagnostic line: the text after
each occurrence of the `-L native=` marker, cleaned, kept only when it exists
on disk (main.rs lines 271-283). -/
def lineTokens (fs : FileSys) (line : String) : List String :=
  ((splitOnChars nativeMarker.data line.data).drop 1).filterMap fun part =>
    let p := cleanPath part
    if fs.pathExists p then some p else none

/-- One step of the diagnostic scan: state is the in-target-crate flag and the
accumulated search-path set (main.rs lines 260-285). The flag is set by the
crate marker and never cleared; collection happens on the same line the flag
is set when both markers appear. -/
def scanLine (fs : FileSys) (crateName : String) (st : Bool × List String)
    (line : String) : Bool × List String :=
  let inTarget := st.1 || containsSubstr line (crateMarker crateName)
  let acc :=
    if inTarget && containsSubstr line nativeMarker then
      (lineTokens fs line).foldl (fun a p => insertPath p a) st.2
    else st.2
  (inTarget, acc)

/-- Scan of one diagnostic stream with a fresh in-target-crate flag, starting
from an already-accumulated search-path set. -/
def scanStream (fs : FileSys) (crateName : String) (lines : List String)
    (init : List String) : List String :=
  (lines.foldl (scanLine fs crateName) (false, init)).2

/-- Search-path collection over both diagnostic streams: stdout is scanned
first, then stderr, each with a fresh flag, into one shared set (main.rs
lines 252-286). -/
def collectSearchPaths (fs : FileSys) (crateName : String)
    (stdoutLines stderrLines : List String) : List String :=
  scanStream fs crateName stderrLines (scanStream fs crateName stdoutLines [])

/-- Library-file classification by platform convention (main.rs lines
301-312): on Windows extension `lib` or `dll`; elsewhere extension `a` or
`so`, or a file name containing `.dylib`. -/
def isLibFile (windows : Bool) (path : String) : Bool :=
  let ext := extension path
  let fname := fileName path
  if windows then ext == "lib" || ext == "dll"
  else ext == "a" || ext == "so" || containsSubstr fname ".dylib"

/-- Library-file resolution (main.rs lines 293-318): each collected directory
that exists and is a directory is listed non-recursively, and every regular
file matching the platform convention is kept. -/
def findLibraryFiles (windows : Bool) (fs : FileSys) (dirs : List String) :
    List String :=
  dirs.foldl (fun acc d =>
    if fs.pathExists d && fs.isDir d then
      acc ++ (fs.entries d).filter (fun p => fs.isFile p && isLibFile windows p)
    else acc) []

/-- Full model of `parse_native_libraries` (main.rs lines 247-321): scan both
streams for search paths attributable to the target crate, then resolve them
to concrete library files. -/
def parse_native_libraries (windows : Bool) (fs : FileSys)
    (stdoutLines stderrLines : List String) (crateName : String) :
    List String :=
  findLibraryFiles windows fs (collectSearchPaths fs crateName stdoutLines stderrLines)

/-- Host platform, modelling the `cfg!(windows)` / `cfg!(target_os = "macos")`
compile-time branches. -/
inductive Platform where
  | windows
  | macos
  | other
deriving DecidableEq

/-- Observable side effects of one pipeline run: directory removals and
creations, external process invocations, and file copies. -/
inductive Ev where
  | removeDirAll (p : String)
  | createDirAll (p : String)
  | rustupAddTargets
  | cargoBuild (target : Option String) (release : Bool) (crate : String)
  | lipoCreate (x86lib arm64lib out : String)
  | lipoInfo (lib : String)
  | cmakeConfigure (args : List String)
  | cmakeBuild (release : Bool)
  | copyFile (src dst : String)
deriving DecidableEq

/-- Error outcomes of the pipeline, one per early-return site of
`build_plugin` and its helpers. -/
inductive BuildError where
  | buildFailure (stderrLines : List String)
  | artifactNotFound (path : String)
  | rustupFailure
  | fusionFailure
  | missingTemplates
  | configureFailure
  | packagingBuildFailure
  | notADirectory
deriving DecidableEq

/-- Directory tree of the packaging output, used by `copy_plugin_files`:
each node is a regular file or a directory with children. -/
inductive FNode where
  | file (name : String)
  | dir (name : String) (children : List FNode)

/-- Name of a tree node. -/
def nodeName : FNode → String
  | .file n => n
  | .dir n _ => n

/-- First entry with the given name in a directory listing. -/
def lookup1 : List FNode → String → Option FNode
  | [], _ => none
  | c :: rest, n => if nodeName c == n then some c else lookup1 rest n

mutual

/-- Copy events for one directory entry inside `copy_dir_recursive` (main.rs
lines 484-494): a file is copied, a directory is copied recursively. -/
def copyEntry (ex : String → Bool) : FNode → String → String → List Ev
  | .file n, source, dest => [Ev.copyFile (pjoin source n) (pjoin dest n)]
  | .dir n cs, source, dest => copy_dir_recursive ex cs (pjoin source n) (pjoin dest n)

/-- Model of `copy_dir_recursive` (main.rs lines 479-497), applied to the
children of the source directory: the destination is created when absent,
then every entry is copied. `ex` is the destination-existence oracle. -/
def copy_dir_recursive (ex : String → Bool) (cs : List FNode)
    (source dest : String) : List Ev :=
  (if ex dest then [] else [Ev.createDirAll dest]) ++ copyEntries ex cs source dest

/-- Copy events for a list of directory entries, in listing order. -/
def copyEntries (ex : String → Bool) : List FNode → String → String → List Ev
  | [], _, _ => []
  | c :: rest, source, dest => copyEntry ex c source dest ++ copyEntries ex rest source dest

end

/-- Subdirectory `<fmt>/<profile>` of the packaging output tree, as
`source_dir.join(format).join(profile)` resolves against the tree. The result
is `none` exactly when that path does not exist. -/
def formatSubdir (tree : List FNode) (fmt profile : String) : Option FNode :=
  match lookup1 tree fmt with
  | some (.dir _ cs) => lookup1 cs profile
  | _ => none

/-- Copy events for one format under the Windows nested layout (main.rs lines
453-467): a missing `<fmt>/<profile>` directory is skipped; its immediate
files are copied into the destination root and its directories are copied
recursively. `read_dir` on a path that exists but is not a directory fails. -/
def copyFormat (ex : String → Bool) (tree : List FNode)
    (sourceDir destDir profile fmt : String) : Except BuildError (List Ev) :=
  match formatSubdir tree fmt profile with
  | none => .ok []
  | some (.file _) => .error .notADirectory
  | some (.dir _ cs) => .ok (copyEntries ex cs (pjoin (pjoin sourceDir fmt) profile) destDir)

/-- Model of `copy_plugin_files` (main.rs lines 442-476): the destination is
created, then on Windows the fixed format list `[VST3, CLAP]` is traversed
under the nested layout, and on other platforms the whole source tree is
copied recursively. -/
def copy_plugin_files (windows : Bool) (ex : String → Bool) (tree : List FNode)
    (sourceDir destDir profile : String) : Except BuildError (List Ev) :=
  let mkdir := [Ev.createDirAll destDir]
  let ex1 := fun p => ex p || p == destDir
  if windows then
    match copyFormat ex1 tree sourceDir destDir profile "VST3" with
    | .error e => .error e
    | .ok evs1 =>
      match copyFormat ex1 tree sourceDir destDir profile "CLAP" with
      | .error e => .error e
      | .ok evs2 => .ok (mkdir ++ evs1 ++ evs2)
  else
    .ok (mkdir ++ copy_dir_recursive ex1 tree sourceDir destDir)

/-- Captured output of one external process invocation. -/
structure CmdOut where
  success : Bool
  stdoutLines : List String
  stderrLines : List String

/-- Oracle for the outcomes of all external effects of one run. -/
structure World where
  fs : FileSys
  cargoOut : CmdOut
  cargoOutFor : String → CmdOut
  rustupOK : Bool
  lipoCreateOK : Bool
  lipoInfoOK : Bool
  cmakeConfigureOK : Bool
  cmakeBuildOK : Bool
  destDirPre : String → Bool
  assetsTree : List FNode

/-- Arguments of the `build` subcommand (main.rs lines 19-42). The option
surface of the derived CLI is exactly these fields. -/
structure BuildArgs where
  crate_name : String
  release : Bool
  bundle_id : String
  clean : Bool
  install : Bool

/-- Long-option names accepted by the `build` subcommand, as derived by clap
from the `Commands::Build` fields marked `#[arg(long)]` (main.rs lines
19-42): `release`, `bundle_id`, `clean`, `install` in kebab case. There is no
formats option. -/
def buildOptionNames : List String :=
  ["--release", "--bundle-id", "--clean", "--install"]

/-- Configure arguments of the packaging system (main.rs lines 191-215):
source dir, build dir, then the flattened key/value configuration, with the
semicolon-joined native library list appended only when non-empty. -/
def configureArgs (cmakeDir cmakeBuildDir crateName staticLib bundleId
    assetsDir : String) (install : Bool) (nativeLibs : List String) :
    List String :=
  ["-S", cmakeDir, "-B", cmakeBuildDir,
   "-DPROJECT_NAME=" ++ crateName,
   "-DSTATIC_LIB_FILE=" ++ staticLib,
   "-DBUNDLE_ID=" ++ bundleId,
   "-DPLUGIN_OUTPUT_DIR=" ++ assetsDir,
   "-DINSTALL_PLUGINS_AFTER_BUILD=" ++ (if install then "ON" else "OFF")]
  ++ (if nativeLibs.isEmpty then []
      else ["-DNATIVE_LIBRARIES=" ++ String.intercalate ";" nativeLibs])

/-- Deduplicating union of two path lists, modelling the accumulation of both
architectures' library lists into one `HashSet` (main.rs lines 348, 386-387).
-/
def dedupUnion (xs ys : List String) : List String :=
  (xs ++ ys).foldl (fun a p => insertPath p a) []

/-- Model of `build_universal_macos_binary` (main.rs lines 324-439): add both
targets, build each architecture, union the native libraries of both builds
into one deduplicated set, fuse the two static libraries with lipo, then run
the non-fatal lipo info query. -/
def build_universal_macos_binary (w : World) (root crateName normalized : String)
    (release : Bool) : List Ev × Except BuildError (String × List String) :=
  let ev0 := [Ev.rustupAddTargets]
  if !w.rustupOK then (ev0, .error .rustupFailure)
  else
    let profile := if release then "release" else "debug"
    let out1 := w.cargoOutFor "x86_64-apple-darwin"
    let evs1 := ev0 ++ [Ev.cargoBuild (some "x86_64-apple-darwin") release crateName]
    if !out1.success then (evs1, .error (.buildFailure out1.stderrLines))
    else
      let libs1 := parse_native_libraries false w.fs out1.stdoutLines out1.stderrLines crateName
      let out2 := w.cargoOutFor "aarch64-apple-darwin"
      let evs2 := evs1 ++ [Ev.cargoBuild (some "aarch64-apple-darwin") release crateName]
      if !out2.success then (evs2, .error (.buildFailure out2.stderrLines))
      else
        let libs2 := parse_native_libraries false w.fs out2.stdoutLines out2.stderrLines crateName
        let combined := dedupUnion libs1 libs2
        let x86lib := pjoin (pjoin (pjoin (pjoin root "target") "x86_64-apple-darwin") profile)
          ("lib" ++ normalized ++ ".a")
        let arm64lib := pjoin (pjoin (pjoin (pjoin root "target") "aarch64-apple-darwin") profile)
          ("lib" ++ normalized ++ ".a")
        let universalDir := pjoin (pjoin root "target") "universal"
        let universalLib := pjoin universalDir ("lib" ++ normalized ++ ".a")
        let evs3 := evs2 ++ [Ev.createDirAll universalDir,
          Ev.lipoCreate x86lib arm64lib universalLib]
        if !w.lipoCreateOK then (evs3, .error .fusionFailure)
        else (evs3 ++ [Ev.lipoInfo universalLib], .ok (universalLib, combined))

/-- Clean-step events (main.rs lines 72-77): when `clean` is requested the
three directories `target/cmake-build`, `target/cmake-assets` and
`target/plugins` are removed first. -/
def cleanEvents (root : String) (clean : Bool) : List Ev :=
  if clean then
    [Ev.removeDirAll (pjoin root "target/cmake-build"),
     Ev.removeDirAll (pjoin root "target/cmake-assets"),
     Ev.removeDirAll (pjoin root "target/plugins")]
  else []

/-- Expected static-library path of a non-macOS build (main.rs lines
136-145): `target/<profile>/<name>.lib` on Windows and
`target/<profile>/lib<name>.a` elsewhere, from the crate's normalized name
and the profile. -/
def staticLibPath (plat : Platform) (root : String) (a : BuildArgs) : String :=
  let normalized := String.mk (replaceDash a.crate_name.data)
  let profile := if a.release then "release" else "debug"
  let targetDir := pjoin (pjoin root "target") profile
  if plat = Platform.windows then pjoin targetDir (normalized ++ ".lib")
  else pjoin targetDir ("lib" ++ normalized ++ ".a")

/-- Platform-conditional build step of `build_plugin` (main.rs lines 86-148):
the universal two-architecture build on macOS, otherwise one verbose cargo
build whose diagnostics are scanned for native libraries, with the static
library resolved at the platform-conventional path. -/
def buildStep (plat : Platform) (w : World) (root : String) (a : BuildArgs) :
    List Ev × Except BuildError (String × List String) :=
  if plat = Platform.macos then
    build_universal_macos_binary w root a.crate_name
      (String.mk (replaceDash a.crate_name.data)) a.release
  else
    let evs := [Ev.cargoBuild none a.release a.crate_name]
    if !w.cargoOut.success then (evs, .error (.buildFailure w.cargoOut.stderrLines))
    else
      let libs := parse_native_libraries (plat = Platform.windows) w.fs
        w.cargoOut.stdoutLines w.cargoOut.stderrLines a.crate_name
      (evs, .ok (staticLibPath plat root a, libs))

/-- The pipeline of `build_plugin` after the clean step (main.rs lines
79-243): build, static-library existence check, packaging-template check,
cmake configure and build, final copy. -/
def pipelineAfterClean (plat : Platform) (w : World) (root : String)
    (a : BuildArgs) : List Ev × Except BuildError Unit :=
  let profile := if a.release then "release" else "debug"
  match buildStep plat w root a with
  | (buildEvs, .error e) => (buildEvs, .error e)
  | (buildEvs, .ok (staticLib, nativeLibs)) =>
    if !w.fs.pathExists staticLib then
      (buildEvs, .error (.artifactNotFound staticLib))
    else
      let cmakeBuildDir := pjoin root "target/cmake-build"
      let cmakeDir := pjoin root "xtask/cmake"
      let buildCmake := pjoin cmakeDir "CMakeLists.txt"
      let entryCpp := pjoin cmakeDir "clap_entry.cpp"
      let entryH := pjoin cmakeDir "clap_entry.h"
      let evs2 := buildEvs ++ [Ev.createDirAll cmakeBuildDir]
      if !w.fs.pathExists buildCmake || !w.fs.pathExists entryCpp
          || !w.fs.pathExists entryH then
        (evs2, .error .missingTemplates)
      else
        let assetsDir := pjoin root "target/cmake-assets"
        let pluginOutDir := pjoin (pjoin (pjoin root "target") profile) "plugins"
        let evs3 := evs2 ++ [Ev.createDirAll assetsDir, Ev.createDirAll pluginOutDir]
        let args := configureArgs cmakeDir cmakeBuildDir a.crate_name staticLib
          a.bundle_id assetsDir a.install nativeLibs
        let evs4 := evs3 ++ [Ev.cmakeConfigure args]
        if !w.cmakeConfigureOK then (evs4, .error .configureFailure)
        else
          let evs5 := evs4 ++ [Ev.cmakeBuild a.release]
          if !w.cmakeBuildOK then (evs5, .error .packagingBuildFailure)
          else
            match copy_plugin_files (plat = Platform.windows) w.destDirPre
                w.assetsTree assetsDir pluginOutDir profile with
            | .error e => (evs5, .error e)
            | .ok copyEvs => (evs5 ++ copyEvs, .ok ())

/-- Model of `build_plugin` (main.rs lines 61-244): the optional clean step
followed by the build-package-place pipeline. -/
def build_plugin (plat : Platform) (w : World) (root : String) (a : BuildArgs) :
    List Ev × Except BuildError Unit :=
  (cleanEvents root a.clean ++ (pipelineAfterClean plat w root a).1,
   (pipelineAfterClean plat w root a).2)

/-- Classifier for packaging-system invocations among trace events. -/
def isCmakeEv : Ev → Bool
  | .cmakeConfigure _ => true
  | .cmakeBuild _ => true
  | _ => false

/-- Classifier for directory removals among trace events. -/
def isRemoveEv : Ev → Bool
  | .removeDirAll _ => true
  | _ => false

/-- One-stream collection property, phrased as the specification states it:
a path is collected from a line exactly when that line carries the
native-search marker, yields the path as an existing extracted token, and
lies at or after some line carrying the target crate's compilation marker. -/
def streamSpec (fs : FileSys) (crateName : String) (lines : List String)
    (p : String) : Prop :=
  ∃ i, i < lines.length ∧
    containsSubstr (lines.getD i "") nativeMarker = true ∧
    p ∈ lineTokens fs (lines.getD i "") ∧
    ∃ j, j ≤ i ∧ containsSubstr (lines.getD j "") (crateMarker crateName) = true

/-- Join of a base path with a relative path given as segments. -/
def joinSegs (base : String) (segs : List String) : String :=
  segs.foldl pjoin base

mutual

/-- Relative segment paths of all regular files inside one tree node. -/
def filesOfNode : FNode → List (List String)
  | .file n => [[n]]
  | .dir n cs => (filesOfList cs).map (n :: ·)

/-- Relative segment paths of all regular files inside a forest. -/
def filesOfList : List FNode → List (List String)
  | [] => []
  | c :: rest => filesOfNode c ++ filesOfList rest

end

/-- Copy events for a list of requested formats, each handled as one format
of the nested layout. -/
def copyFormats (ex : String → Bool) (tree : List FNode)
    (sourceDir destDir profile : String) : List String → Except BuildError (List Ev)
  | [] => .ok []
  | f :: rest =>
    match copyFormat ex tree sourceDir destDir profile f with
    | .error e => .error e
    | .ok evs =>
      match copyFormats ex tree sourceDir destDir profile rest with
      | .error e => .error e
      | .ok evs2 => .ok (evs ++ evs2)

/-- Modelled from the spec: the Artifact Placer as the claim describes it for
the nested layout, iterating the *requested* format list (rather than the
fixed list the code iterates) and copying each format's
`<output>/<FORMAT>/<profile>` contents into the destination root. -/
def requestedFormatsPlacer (ex : String → Bool) (tree : List FNode)
    (sourceDir destDir profile : String) (formats : List String) :
    Except BuildError (List Ev) :=
  let ex1 := fun p => ex p || p == destDir
  match copyFormats ex1 tree sourceDir destDir profile formats with
  | .error e => .error e
  | .ok evs => .ok ([Ev.createDirAll destDir] ++ evs)

/-- Sample file system used to evaluate the theorems on concrete inputs:
one library directory with one matching and one non-matching file, and one
existing path that is a regular file rather than a directory. -/
def fsA : FileSys where
  pathExists := fun p =>
    p == "/lib" || p == "/lib/liba.a" || p == "/lib/note.txt" || p == "/xfile"
  isDir := fun p => p == "/lib"
  isFile := fun p => p == "/lib/liba.a" || p == "/lib/note.txt" || p == "/xfile"
  entries := fun d => if d == "/lib" then ["/lib/liba.a", "/lib/note.txt"] else []

/-!
Helper lemmas about the scanner and resolver.
-/

theorem mem_insertPath (p q : String) (ps : List String) :
    p ∈ insertPath q ps ↔ p ∈ ps ∨ p = q := by
  unfold insertPath
  split
  · constructor
    · exact Or.inl
    · rintro (h | rfl) <;> assumption
  · simp

theorem insertPath_idem (d : String) (ds : List String) :
    insertPath d (insertPath d ds) = insertPath d ds := by
  unfold insertPath
  by_cases h : d ∈ ds
  · simp [h]
  · rw [if_neg h, if_pos (by simp)]

theorem mem_foldl_insertPath (ts : List String) :
    ∀ (acc : List String) (p : String),
      p ∈ ts.foldl (fun a q => insertPath q a) acc ↔ p ∈ acc ∨ p ∈ ts := by
  induction ts with
  | nil => simp
  | cons t ts ih =>
    intro acc p
    rw [List.foldl_cons, ih]
    rw [mem_insertPath]
    simp only [List.mem_cons]
    tauto

theorem mem_scanFold (fs : FileSys) (c : String) :
    ∀ (lines : List String) (b : Bool) (acc : List String) (p : String),
      p ∈ (lines.foldl (scanLine fs c) (b, acc)).2 ↔
        p ∈ acc ∨ ∃ i, i < lines.length ∧
          containsSubstr (lines.getD i "") nativeMarker = true ∧
          p ∈ lineTokens fs (lines.getD i "") ∧
          (b = true ∨ ∃ j, j ≤ i ∧
            containsSubstr (lines.getD j "") (crateMarker c) = true) := by
  intro lines
  induction lines with
  | nil => simp
  | cons l ls ih =>
    intro b acc p
    rw [List.foldl_cons]
    show p ∈ (ls.foldl (scanLine fs c)
      (b || containsSubstr l (crateMarker c),
       if (b || containsSubstr l (crateMarker c)) && containsSubstr l nativeMarker
       then (lineTokens fs l).foldl (fun a q => insertPath q a) acc else acc)).2 ↔ _
    rw [ih]
    constructor
    · rintro (h | ⟨i, hi, hn, ht, hcond⟩)
      · by_cases hg : ((b || containsSubstr l (crateMarker c)) && containsSubstr l nativeMarker) = true
        · rw [if_pos hg] at h
          rw [mem_foldl_insertPath] at h
          rcases h with h | h
          · exact Or.inl h
          · refine Or.inr ⟨0, by simp, ?_, ?_, ?_⟩
            · simpa using (Bool.and_elim_right hg)
            · simpa using h
            · rcases Bool.or_eq_true_iff.mp (Bool.and_elim_left hg) with hb | hm
              · exact Or.inl hb
              · exact Or.inr ⟨0, le_refl 0, by simpa using hm⟩
        · rw [if_neg hg] at h
          exact Or.inl h
      · refine Or.inr ⟨i + 1, by simp only [List.length_cons]; omega,
          by simpa using hn, by simpa using ht, ?_⟩
        rcases hcond with hb | ⟨j, hj, hmj⟩
        · rcases Bool.or_eq_true_iff.mp hb with hb | hm
          · exact Or.inl hb
          · exact Or.inr ⟨0, by omega, by simpa using hm⟩
        · exact Or.inr ⟨j + 1, by omega, by simpa using hmj⟩
    · rintro (h | ⟨i, hi, hn, ht, hcond⟩)
      · left
        split
        · rw [mem_foldl_insertPath]; exact Or.inl h
        · exact h
      · cases i with
        | zero =>
          simp only [List.getD_cons_zero] at hn ht
          have hb' : (b || containsSubstr l (crateMarker c)) = true := by
            rcases hcond with hb | ⟨j, hj, hmj⟩
            · simp [hb]
            · interval_cases j
              simp only [List.getD_cons_zero] at hmj
              simp [hmj]
          left
          rw [if_pos (by simp [hb', hn])]
          rw [mem_foldl_insertPath]
          exact Or.inr ht
        | succ i =>
          right
          refine ⟨i, by simp only [List.length_cons] at hi; omega,
            by simpa using hn, by simpa using ht, ?_⟩
          rcases hcond with hb | ⟨j, hj, hmj⟩
          · left; simp [hb]
          · cases j with
            | zero =>
              left
              simp only [List.getD_cons_zero] at hmj
              simp [hmj]
            | succ j =>
              right
              exact ⟨j, by omega, by simpa using hmj⟩

theorem mem_trimQuotes {ch : Char} {cs : List Char} (h : ch ∈ trimQuotes cs) :
    ch ∈ cs := by
  unfold trimQuotes at h
  rw [List.mem_reverse] at h
  have h2 := (List.dropWhile_suffix (· == '"')).sublist.mem h
  rw [List.mem_reverse] at h2
  exact (List.dropWhile_suffix (· == '"')).sublist.mem h2

theorem head?_dropWhile_quote {cs : List Char} {a : Char}
    (h : (cs.dropWhile (· == '"')).head? = some a) : (a == '"') = false := by
  induction cs with
  | nil => simp [List.dropWhile] at h
  | cons c rest ih =>
    rw [List.dropWhile_cons] at h
    by_cases hc : (c == '"') = true
    · rw [if_pos hc] at h
      exact ih h
    · rw [if_neg hc] at h
      simp only [List.head?_cons, Option.some.injEq] at h
      subst h
      simpa using hc

theorem head?_trimQuotes_ne_quote {cs : List Char} {a : Char}
    (h : (trimQuotes cs).head? = some a) : (a == '"') = false := by
  unfold trimQuotes at h
  set l2 := (cs.dropWhile (· == '"')).reverse with hl2
  set l3 := l2.dropWhile (· == '"') with hl3
  rw [List.head?_reverse] at h
  have hne : l3 ≠ [] := by
    intro hnil
    rw [hnil] at h
    simp at h
  obtain ⟨pre, hpre⟩ := List.dropWhile_suffix (l := l2) (· == '"')
  have : l2.getLast? = some a := by
    rw [← hpre, List.getLast?_append_of_ne_nil pre hne, h]
  rw [hl2, List.getLast?_reverse] at this
  exact head?_dropWhile_quote this

theorem getLast?_trimQuotes_ne_quote {cs : List Char} {a : Char}
    (h : (trimQuotes cs).getLast? = some a) : (a == '"') = false := by
  unfold trimQuotes at h
  rw [List.getLast?_reverse] at h
  exact head?_dropWhile_quote h

theorem mem_lineTokens_shape {fs : FileSys} {line p : String}
    (h : p ∈ lineTokens fs line) :
    fs.pathExists p = true ∧
    (∀ ch ∈ p.data, isStopChar ch = false) ∧
    (∀ a, p.data.head? = some a → (a == '"') = false) ∧
    (∀ a, p.data.getLast? = some a → (a == '"') = false) := by
  unfold lineTokens at h
  rw [List.mem_filterMap] at h
  obtain ⟨part, hpart, hmk⟩ := h
  dsimp at hmk
  by_cases hex : fs.pathExists (cleanPath part) = true
  · rw [if_pos hex] at hmk
    obtain rfl : cleanPath part = p := by injection hmk
    refine ⟨hex, ?_, ?_, ?_⟩
    · intro ch hch
      have hch' : ch ∈ part.takeWhile (fun c => !isStopChar c) := mem_trimQuotes hch
      have := List.mem_takeWhile_imp hch'
      simpa using this
    · intro a ha
      exact head?_trimQuotes_ne_quote ha
    · intro a ha
      exact getLast?_trimQuotes_ne_quote ha
  · rw [if_neg hex] at hmk
    exact absurd hmk (by simp)

theorem mem_findFold (windows : Bool) (fs : FileSys) :
    ∀ (dirs : List String) (acc : List String) (q : String),
      q ∈ dirs.foldl (fun acc d =>
        if fs.pathExists d && fs.isDir d then
          acc ++ (fs.entries d).filter (fun p => fs.isFile p && isLibFile windows p)
        else acc) acc ↔
      q ∈ acc ∨ ∃ d ∈ dirs, (fs.pathExists d && fs.isDir d) = true ∧
        q ∈ fs.entries d ∧ (fs.isFile q && isLibFile windows q) = true := by
  intro dirs
  induction dirs with
  | nil => simp
  | cons d rest ih =>
    intro acc q
    rw [List.foldl_cons, ih]
    by_cases hd : (fs.pathExists d && fs.isDir d) = true
    · rw [if_pos hd]
      simp only [List.mem_append, List.mem_filter, List.mem_cons]
      constructor
      · rintro ((h | ⟨h1, h2⟩) | ⟨d2, hd2, h⟩)
        · exact Or.inl h
        · exact Or.inr ⟨d, Or.inl rfl, hd, h1, h2⟩
        · exact Or.inr ⟨d2, Or.inr hd2, h⟩
      · rintro (h | ⟨d2, hd2 | hd2, h⟩)
        · exact Or.inl (Or.inl h)
        · subst hd2; exact Or.inl (Or.inr ⟨h.2.1, h.2.2⟩)
        · exact Or.inr ⟨d2, hd2, h⟩
    · rw [if_neg hd]
      simp only [List.mem_cons]
      constructor
      · rintro (h | ⟨d2, hd2, h⟩)
        · exact Or.inl h
        · exact Or.inr ⟨d2, Or.inr hd2, h⟩
      · rintro (h | ⟨d2, hd2 | hd2, h⟩)
        · exact Or.inl h
        · subst hd2; exact absurd h.1 hd
        · exact Or.inr ⟨d2, hd2, h⟩

theorem mem_findLibraryFiles (windows : Bool) (fs : FileSys) (dirs : List String)
    (q : String) :
    q ∈ findLibraryFiles windows fs dirs ↔
      ∃ d ∈ dirs, (fs.pathExists d && fs.isDir d) = true ∧
        q ∈ fs.entries d ∧ (fs.isFile q && isLibFile windows q) = true := by
  unfold findLibraryFiles
  rw [mem_findFold]
  simp

theorem nodup_findFold (windows : Bool) (fs : FileSys)
    (hent : ∀ d, (fs.entries d).Nodup)
    (hown : ∀ d q, q ∈ fs.entries d → dirPart q = d) :
    ∀ (dirs : List String) (acc : List String), dirs.Nodup → acc.Nodup →
      (∀ q ∈ acc, dirPart q ∉ dirs) →
      (dirs.foldl (fun acc d =>
        if fs.pathExists d && fs.isDir d then
          acc ++ (fs.entries d).filter (fun p => fs.isFile p && isLibFile windows p)
        else acc) acc).Nodup := by
  intro dirs
  induction dirs with
  | nil => intro acc _ ha _; simpa using ha
  | cons d rest ih =>
    intro acc hnd hacc hinv
    rw [List.foldl_cons]
    rw [List.nodup_cons] at hnd
    by_cases hd : (fs.pathExists d && fs.isDir d) = true
    · rw [if_pos hd]
      refine ih _ hnd.2 ?_ ?_
      · refine List.Nodup.append hacc ((hent d).filter _) ?_
        intro q hq hq2
        rw [List.mem_filter] at hq2
        have := hown d q hq2.1
        exact hinv q hq (this ▸ List.mem_cons_self d rest)
      · intro q hq
        rw [List.mem_append] at hq
        rcases hq with hq | hq
        · intro hmem
          exact hinv q hq (List.mem_cons_of_mem d hmem)
        · rw [List.mem_filter] at hq
          rw [hown d q hq.1]
          exact hnd.1
    · rw [if_neg hd]
      refine ih _ hnd.2 hacc ?_
      intro q hq
      exact fun hmem => hinv q hq (List.mem_cons_of_mem d hmem)

/-!
Trace-structure lemmas.
-/

/-- Events the copy phase can emit. -/
def isCopyPhaseEv : Ev → Bool
  | .copyFile _ _ => true
  | .createDirAll _ => true
  | _ => false

/-- Events the build step can emit. -/
def isBuildPhaseEv : Ev → Bool
  | .rustupAddTargets => true
  | .cargoBuild _ _ _ => true
  | .lipoCreate _ _ _ => true
  | .lipoInfo _ => true
  | .createDirAll _ => true
  | _ => false

theorem isCopyPhaseEv_not_remove_cmake {e : Ev} (h : isCopyPhaseEv e = true) :
    isRemoveEv e = false ∧ isCmakeEv e = false := by
  cases e <;> simp_all [isCopyPhaseEv, isRemoveEv, isCmakeEv]

theorem isBuildPhaseEv_not_remove_cmake {e : Ev} (h : isBuildPhaseEv e = true) :
    isRemoveEv e = false ∧ isCmakeEv e = false := by
  cases e <;> simp_all [isBuildPhaseEv, isRemoveEv, isCmakeEv]

mutual

theorem copyEntry_events (ex : String → Bool) (c : FNode) (s t : String) :
    ∀ e ∈ copyEntry ex c s t, isCopyPhaseEv e = true := by
  cases c with
  | file n =>
    intro e he
    rw [copyEntry] at he
    simp only [List.mem_singleton] at he
    subst he
    rfl
  | dir n cs =>
    intro e he
    rw [copyEntry] at he
    exact copy_dir_recursive_events ex cs _ _ e he

theorem copy_dir_recursive_events (ex : String → Bool) (cs : List FNode)
    (s t : String) :
    ∀ e ∈ copy_dir_recursive ex cs s t, isCopyPhaseEv e = true := by
  intro e he
  rw [copy_dir_recursive] at he
  rw [List.mem_append] at he
  rcases he with he | he
  · split at he
    · simp at he
    · simp only [List.mem_singleton] at he
      subst he
      rfl
  · exact copyEntries_events ex cs s t e he

theorem copyEntries_events (ex : String → Bool) (cs : List FNode)
    (s t : String) :
    ∀ e ∈ copyEntries ex cs s t, isCopyPhaseEv e = true := by
  cases cs with
  | nil =>
    intro e he
    rw [copyEntries] at he
    simp at he
  | cons c rest =>
    intro e he
    rw [copyEntries] at he
    rw [List.mem_append] at he
    rcases he with he | he
    · exact copyEntry_events ex c s t e he
    · exact copyEntries_events ex rest s t e he

end

theorem copyFormat_events {ex : String → Bool} {tree : List FNode}
    {sourceDir destDir profile fmt : String} {evs : List Ev}
    (h : copyFormat ex tree sourceDir destDir profile fmt = .ok evs) :
    ∀ e ∈ evs, isCopyPhaseEv e = true := by
  unfold copyFormat at h
  split at h
  · injection h with h
    subst h
    intro e he
    simp at he
  · exact absurd h (by simp)
  · injection h with h
    subst h
    exact copyEntries_events ex _ _ _

theorem copyFormats_events {ex : String → Bool} {tree : List FNode}
    {sourceDir destDir profile : String} :
    ∀ {formats : List String} {evs : List Ev},
      copyFormats ex tree sourceDir destDir profile formats = .ok evs →
      ∀ e ∈ evs, isCopyPhaseEv e = true := by
  intro formats
  induction formats with
  | nil =>
    intro evs h
    rw [copyFormats] at h
    injection h with h
    subst h
    intro e he
    simp at he
  | cons f rest ih =>
    intro evs h
    rw [copyFormats] at h
    rcases h1 : copyFormat ex tree sourceDir destDir profile f with e1 | evs1 <;>
      rw [h1] at h
    · exact absurd h (by simp)
    · rcases h2 : copyFormats ex tree sourceDir destDir profile rest with e2 | evs2 <;>
        rw [h2] at h
      · exact absurd h (by simp)
      · injection h with h
        subst h
        intro e he
        rw [List.mem_append] at he
        rcases he with he | he
        · exact copyFormat_events h1 e he
        · exact ih h2 e he

theorem copy_plugin_files_events {windows : Bool} {ex : String → Bool}
    {tree : List FNode} {sourceDir destDir profile : String} {evs : List Ev}
    (h : copy_plugin_files windows ex tree sourceDir destDir profile = .ok evs) :
    ∀ e ∈ evs, isCopyPhaseEv e = true := by
  unfold copy_plugin_files at h
  by_cases hw : windows = true
  · rw [if_pos hw] at h
    rcases h1 : copyFormat (fun p => ex p || p == destDir) tree sourceDir destDir
        profile "VST3" with e1 | evs1 <;> rw [h1] at h
    · exact absurd h (by simp)
    · rcases h2 : copyFormat (fun p => ex p || p == destDir) tree sourceDir destDir
          profile "CLAP" with e2 | evs2 <;> rw [h2] at h
      · exact absurd h (by simp)
      · injection h with h
        subst h
        intro e he
        simp only [List.append_assoc, List.mem_append, List.mem_singleton] at he
        rcases he with he | he | he
        · subst he; rfl
        · exact copyFormat_events h1 e he
        · exact copyFormat_events h2 e he
  · rw [if_neg hw] at h
    injection h with h
    subst h
    intro e he
    rw [List.mem_append] at he
    rcases he with he | he
    · simp only [List.mem_singleton] at he
      subst he
      rfl
    · exact copy_dir_recursive_events _ _ _ _ e he

theorem build_universal_events (w : World) (root crateName normalized : String)
    (release : Bool) :
    ∀ e ∈ (build_universal_macos_binary w root crateName normalized release).1,
      isBuildPhaseEv e = true := by
  intro e he
  unfold build_universal_macos_binary at he
  by_cases h1 : w.rustupOK = true
  case neg =>
    simp only [Bool.not_eq_true] at h1
    simp only [h1] at he
    simp at he
    subst he
    rfl
  simp only [h1] at he
  by_cases h2 : (w.cargoOutFor "x86_64-apple-darwin").success = true
  case neg =>
    simp only [Bool.not_eq_true] at h2
    simp only [h2] at he
    simp at he
    rcases he with rfl | rfl <;> rfl
  simp only [h2] at he
  by_cases h3 : (w.cargoOutFor "aarch64-apple-darwin").success = true
  case neg =>
    simp only [Bool.not_eq_true] at h3
    simp only [h3] at he
    simp at he
    rcases he with rfl | rfl | rfl <;> rfl
  simp only [h3] at he
  by_cases h4 : w.lipoCreateOK = true
  case neg =>
    simp only [Bool.not_eq_true] at h4
    simp only [h4] at he
    simp at he
    rcases he with rfl | rfl | rfl | rfl | rfl <;> rfl
  simp only [h4] at he
  simp at he
  rcases he with rfl | rfl | rfl | rfl | rfl | rfl <;> rfl

theorem buildStep_events (plat : Platform) (w : World) (root : String)
    (a : BuildArgs) :
    ∀ e ∈ (buildStep plat w root a).1, isBuildPhaseEv e = true := by
  intro e he
  unfold buildStep at he
  by_cases hplat : plat = Platform.macos
  · rw [if_pos hplat] at he
    exact build_universal_events w root _ _ _ e he
  · rw [if_neg hplat] at he
    by_cases hc : (!w.cargoOut.success) = true <;>
      [rw [if_pos hc] at he; rw [if_neg hc] at he] <;>
      (simp at he; subst he; rfl)

theorem pipelineAfterClean_no_remove (plat : Platform) (w : World)
    (root : String) (a : BuildArgs) :
    ∀ e ∈ (pipelineAfterClean plat w root a).1, isRemoveEv e = false := by
  intro e he
  have hb := buildStep_events plat w root a
  unfold pipelineAfterClean at he
  rcases hbs : buildStep plat w root a with ⟨bevs, bres⟩
  rw [hbs] at he hb
  dsimp only at hb
  have hbe : ∀ e2 ∈ bevs, isRemoveEv e2 = false := fun e2 h2 =>
    (isBuildPhaseEv_not_remove_cmake (hb e2 h2)).1
  cases bres with
  | error err =>
    dsimp only at he
    exact hbe e he
  | ok pr =>
    rcases pr with ⟨staticLib, nativeLibs⟩
    dsimp only at he
    by_cases hart : (!w.fs.pathExists staticLib) = true
    · rw [if_pos hart] at he
      exact hbe e he
    rw [if_neg hart] at he
    by_cases htmpl : (!w.fs.pathExists (pjoin (pjoin root "xtask/cmake") "CMakeLists.txt")
        || !w.fs.pathExists (pjoin (pjoin root "xtask/cmake") "clap_entry.cpp")
        || !w.fs.pathExists (pjoin (pjoin root "xtask/cmake") "clap_entry.h")) = true
    · rw [if_pos htmpl] at he
      rcases List.mem_append.mp he with h | h
      · exact hbe e h
      · simp only [List.mem_singleton] at h
        subst h
        rfl
    rw [if_neg htmpl] at he
    by_cases hcfg : (!w.cmakeConfigureOK) = true
    · rw [if_pos hcfg] at he
      simp only [List.append_assoc, List.singleton_append, List.cons_append,
        List.nil_append] at he
      rcases List.mem_append.mp he with h | h
      · exact hbe e h
      · simp only [List.mem_cons, List.not_mem_nil, or_false] at h
        rcases h with rfl | rfl | rfl | rfl <;> rfl
    rw [if_neg hcfg] at he
    by_cases hbld : (!w.cmakeBuildOK) = true
    · rw [if_pos hbld] at he
      simp only [List.append_assoc, List.singleton_append, List.cons_append,
        List.nil_append] at he
      rcases List.mem_append.mp he with h | h
      · exact hbe e h
      · simp only [List.mem_cons, List.not_mem_nil, or_false] at h
        rcases h with rfl | rfl | rfl | rfl | rfl <;> rfl
    rw [if_neg hbld] at he
    rcases hcp : copy_plugin_files (plat = Platform.windows) w.destDirPre
        w.assetsTree (pjoin root "target/cmake-assets")
        (pjoin (pjoin (pjoin root "target") (if a.release then "release" else "debug"))
          "plugins")
        (if a.release then "release" else "debug") with cerr | copyEvs <;>
      rw [hcp] at he
    · dsimp only at he
      simp only [List.append_assoc, List.singleton_append, List.cons_append,
        List.nil_append] at he
      rcases List.mem_append.mp he with h | h
      · exact hbe e h
      · simp only [List.mem_cons, List.not_mem_nil, or_false] at h
        rcases h with rfl | rfl | rfl | rfl | rfl <;> rfl
    · dsimp only at he
      simp only [List.append_assoc, List.singleton_append, List.cons_append,
        List.nil_append] at he
      rcases List.mem_append.mp he with h | h
      · exact hbe e h
      · simp only [List.mem_cons] at h
        rcases h with rfl | rfl | rfl | rfl | rfl | h
        · rfl
        · rfl
        · rfl
        · rfl
        · rfl
        · exact (isCopyPhaseEv_not_remove_cmake (copy_plugin_files_events hcp e h)).1

theorem pipelineAfterClean_missing_templates (plat : Platform) (w : World)
    (root : String) (a : BuildArgs)
    (hmiss : w.fs.pathExists (pjoin (pjoin root "xtask/cmake") "CMakeLists.txt") = false ∨
      w.fs.pathExists (pjoin (pjoin root "xtask/cmake") "clap_entry.cpp") = false ∨
      w.fs.pathExists (pjoin (pjoin root "xtask/cmake") "clap_entry.h") = false) :
    (∃ err, (pipelineAfterClean plat w root a).2 = .error err) ∧
    (∀ e ∈ (pipelineAfterClean plat w root a).1, isCmakeEv e = false) := by
  have htmpl : (!w.fs.pathExists (pjoin (pjoin root "xtask/cmake") "CMakeLists.txt")
      || !w.fs.pathExists (pjoin (pjoin root "xtask/cmake") "clap_entry.cpp")
      || !w.fs.pathExists (pjoin (pjoin root "xtask/cmake") "clap_entry.h")) = true := by
    rcases hmiss with h | h | h <;> simp [h]
  have hb := buildStep_events plat w root a
  unfold pipelineAfterClean
  rcases hbs : buildStep plat w root a with ⟨bevs, bres⟩
  rw [hbs] at hb
  dsimp only at hb
  have hbe : ∀ e2 ∈ bevs, isCmakeEv e2 = false := fun e2 h2 =>
    (isBuildPhaseEv_not_remove_cmake (hb e2 h2)).2
  cases bres with
  | error err =>
    exact ⟨⟨err, rfl⟩, hbe⟩
  | ok pr =>
    rcases pr with ⟨staticLib, nativeLibs⟩
    dsimp only
    by_cases hart : (!w.fs.pathExists staticLib) = true
    · rw [if_pos hart]
      exact ⟨⟨.artifactNotFound staticLib, rfl⟩, hbe⟩
    rw [if_neg hart, if_pos htmpl]
    refine ⟨⟨.missingTemplates, rfl⟩, ?_⟩
    intro e he
    rcases List.mem_append.mp he with h | h
    · exact hbe e h
    · simp only [List.mem_singleton] at h
      subst h
      rfl

theorem pipelineAfterClean_configure_shape (plat : Platform) (w : World)
    (root : String) (a : BuildArgs) (args : List String)
    (h : Ev.cmakeConfigure args ∈ (pipelineAfterClean plat w root a).1) :
    ∃ staticLib libs,
      (buildStep plat w root a).2 = .ok (staticLib, libs) ∧
      w.fs.pathExists staticLib = true ∧
      args = configureArgs (pjoin root "xtask/cmake") (pjoin root "target/cmake-build")
        a.crate_name staticLib a.bundle_id (pjoin root "target/cmake-assets")
        a.install libs := by
  have hb := buildStep_events plat w root a
  unfold pipelineAfterClean at h
  rcases hbs : buildStep plat w root a with ⟨bevs, bres⟩
  rw [hbs] at h hb
  dsimp only at hb
  have hbe : Ev.cmakeConfigure args ∉ bevs := by
    intro hmem
    have := hb _ hmem
    simp [isBuildPhaseEv] at this
  cases bres with
  | error err => exact absurd h hbe
  | ok pr =>
    rcases pr with ⟨staticLib, nativeLibs⟩
    dsimp only at h
    by_cases hart : (!w.fs.pathExists staticLib) = true
    · rw [if_pos hart] at h
      exact absurd h hbe
    rw [if_neg hart] at h
    have hartT : w.fs.pathExists staticLib = true := by
      simpa using hart
    by_cases htmpl : (!w.fs.pathExists (pjoin (pjoin root "xtask/cmake") "CMakeLists.txt")
        || !w.fs.pathExists (pjoin (pjoin root "xtask/cmake") "clap_entry.cpp")
        || !w.fs.pathExists (pjoin (pjoin root "xtask/cmake") "clap_entry.h")) = true
    · rw [if_pos htmpl] at h
      rcases List.mem_append.mp h with h2 | h2
      · exact absurd h2 hbe
      · simp at h2
    rw [if_neg htmpl] at h
    by_cases hcfg : (!w.cmakeConfigureOK) = true
    · rw [if_pos hcfg] at h
      simp only [List.append_assoc, List.singleton_append, List.cons_append,
        List.nil_append] at h
      rcases List.mem_append.mp h with h2 | h2
      · exact absurd h2 hbe
      · simp only [List.mem_cons, List.not_mem_nil, or_false] at h2
        rcases h2 with h2 | h2 | h2 | h2
        · exact absurd h2 (by simp)
        · exact absurd h2 (by simp)
        · exact absurd h2 (by simp)
        · injection h2 with h2
          exact ⟨staticLib, nativeLibs, rfl, hartT, h2⟩
    rw [if_neg hcfg] at h
    by_cases hbld : (!w.cmakeBuildOK) = true
    · rw [if_pos hbld] at h
      simp only [List.append_assoc, List.singleton_append, List.cons_append,
        List.nil_append] at h
      rcases List.mem_append.mp h with h2 | h2
      · exact absurd h2 hbe
      · simp only [List.mem_cons, List.not_mem_nil, or_false] at h2
        rcases h2 with h2 | h2 | h2 | h2 | h2
        · exact absurd h2 (by simp)
        · exact absurd h2 (by simp)
        · exact absurd h2 (by simp)
        · injection h2 with h2
          exact ⟨staticLib, nativeLibs, rfl, hartT, h2⟩
        · exact absurd h2 (by simp)
    rw [if_neg hbld] at h
    rcases hcp : copy_plugin_files (plat = Platform.windows) w.destDirPre
        w.assetsTree (pjoin root "target/cmake-assets")
        (pjoin (pjoin (pjoin root "target") (if a.release then "release" else "debug"))
          "plugins")
        (if a.release then "release" else "debug") with cerr | copyEvs <;>
      rw [hcp] at h
    · dsimp only at h
      simp only [List.append_assoc, List.singleton_append, List.cons_append,
        List.nil_append] at h
      rcases List.mem_append.mp h with h2 | h2
      · exact absurd h2 hbe
      · simp only [List.mem_cons, List.not_mem_nil, or_false] at h2
        rcases h2 with h2 | h2 | h2 | h2 | h2
        · exact absurd h2 (by simp)
        · exact absurd h2 (by simp)
        · exact absurd h2 (by simp)
        · injection h2 with h2
          exact ⟨staticLib, nativeLibs, rfl, hartT, h2⟩
        · exact absurd h2 (by simp)
    · dsimp only at h
      simp only [List.append_assoc, List.singleton_append, List.cons_append,
        List.nil_append] at h
      rcases List.mem_append.mp h with h2 | h2
      · exact absurd h2 hbe
      · simp only [List.mem_cons] at h2
        rcases h2 with h2 | h2 | h2 | h2 | h2 | h2
        · exact absurd h2 (by simp)
        · exact absurd h2 (by simp)
        · exact absurd h2 (by simp)
        · injection h2 with h2
          exact ⟨staticLib, nativeLibs, rfl, hartT, h2⟩
        · exact absurd h2 (by simp)
        · have := copy_plugin_files_events hcp _ h2
          simp [isCopyPhaseEv] at this

theorem buildStep_regular_ok (plat : Platform) (w : World) (root : String)
    (a : BuildArgs) (hplat : plat ≠ Platform.macos)
    (hok : w.cargoOut.success = true) :
    buildStep plat w root a =
      ([Ev.cargoBuild none a.release a.crate_name],
       .ok (staticLibPath plat root a,
         parse_native_libraries (plat = Platform.windows) w.fs
           w.cargoOut.stdoutLines w.cargoOut.stderrLines a.crate_name)) := by
  unfold buildStep
  rw [if_neg hplat]
  simp [hok]

theorem buildStep_regular_fail (plat : Platform) (w : World) (root : String)
    (a : BuildArgs) (hplat : plat ≠ Platform.macos)
    (hfail : w.cargoOut.success = false) :
    buildStep plat w root a =
      ([Ev.cargoBuild none a.release a.crate_name],
       .error (.buildFailure w.cargoOut.stderrLines)) := by
  unfold buildStep
  rw [if_neg hplat]
  simp [hfail]

/-!
Concrete worlds used to evaluate the theorems.
-/

/-- File system of a healthy run: static library and all three packaging
templates exist. -/
def fsB : FileSys where
  pathExists := fun p =>
    p == "/r/target/debug/libgain_example.a" || p == "/r/xtask/cmake/CMakeLists.txt" ||
    p == "/r/xtask/cmake/clap_entry.cpp" || p == "/r/xtask/cmake/clap_entry.h"
  isDir := fun _ => false
  isFile := fun _ => false
  entries := fun _ => []

/-- File system with the static library missing. -/
def fsC : FileSys :=
  { fsB with pathExists := fun p =>
      p == "/r/xtask/cmake/CMakeLists.txt" || p == "/r/xtask/cmake/clap_entry.cpp" ||
      p == "/r/xtask/cmake/clap_entry.h" }

/-- File system with the template header `clap_entry.h` missing. -/
def fsD : FileSys :=
  { fsB with pathExists := fun p =>
      p == "/r/target/debug/libgain_example.a" ||
      p == "/r/xtask/cmake/CMakeLists.txt" || p == "/r/xtask/cmake/clap_entry.cpp" }

/-- A successful external command with empty output. -/
def okOut : CmdOut := { success := true, stdoutLines := [], stderrLines := [] }

/-- World whose run proceeds up to the packaging build phase and stops there,
keeping every trace prefix computable. -/
def wStop : World where
  fs := fsB
  cargoOut := okOut
  cargoOutFor := fun _ => okOut
  rustupOK := true
  lipoCreateOK := true
  lipoInfoOK := false
  cmakeConfigureOK := true
  cmakeBuildOK := false
  destDirPre := fun _ => false
  assetsTree := []

/-- World whose cargo build fails with captured stderr. -/
def wCargoFail : World :=
  { wStop with cargoOut := { success := false, stdoutLines := [], stderrLines := ["boom"] } }

/-- World whose build succeeds but whose static library is missing. -/
def wNoArt : World := { wStop with fs := fsC }

/-- World with a packaging template missing. -/
def wNoTmpl : World := { wStop with fs := fsD }

/-- Build arguments used for concrete evaluations. -/
def aB : BuildArgs where
  crate_name := "gain-example"
  release := false
  bundle_id := "b"
  clean := true
  install := false

/-!
Helper lemmas for the Artifact Placer and the universal build.
-/

mutual

theorem mem_copyEntry_iff (ex : String → Bool) (c : FNode) (s t a b : String) :
    Ev.copyFile a b ∈ copyEntry ex c s t ↔
      ∃ rel ∈ filesOfNode c, a = joinSegs s rel ∧ b = joinSegs t rel := by
  cases c with
  | file n =>
    simp [copyEntry, filesOfNode, joinSegs]
  | dir n cs =>
    rw [copyEntry, filesOfNode, copy_dir_recursive]
    constructor
    · intro h
      simp only [List.mem_append] at h
      rcases h with h | h
      · split at h <;> simp_all
      · rcases (mem_copyEntries_iff ex cs (pjoin s n) (pjoin t n) a b).mp h with
          ⟨rel, hrel, ha, hb⟩
        exact ⟨n :: rel, by simpa using hrel,
          by simp only [joinSegs, List.foldl_cons] at ha ⊢; exact ha,
          by simp only [joinSegs, List.foldl_cons] at hb ⊢; exact hb⟩
    · rintro ⟨rel, hrel, ha, hb⟩
      simp only [List.mem_map] at hrel
      rcases hrel with ⟨rel2, hrel2, rfl⟩
      simp only [List.mem_append]
      right
      exact (mem_copyEntries_iff ex cs (pjoin s n) (pjoin t n) a b).mpr
        ⟨rel2, hrel2, by simpa [joinSegs] using ha, by simpa [joinSegs] using hb⟩

theorem mem_copyEntries_iff (ex : String → Bool) (cs : List FNode) (s t a b : String) :
    Ev.copyFile a b ∈ copyEntries ex cs s t ↔
      ∃ rel ∈ filesOfList cs, a = joinSegs s rel ∧ b = joinSegs t rel := by
  cases cs with
  | nil => simp [copyEntries, filesOfList]
  | cons c rest =>
    rw [copyEntries, filesOfList]
    simp only [List.mem_append]
    rw [mem_copyEntry_iff ex c s t a b, mem_copyEntries_iff ex rest s t a b]
    constructor
    · rintro (⟨rel, h1, h2⟩ | ⟨rel, h1, h2⟩)
      · exact ⟨rel, Or.inl h1, h2⟩
      · exact ⟨rel, Or.inr h1, h2⟩
    · rintro ⟨rel, h1 | h1, h2⟩
      · exact Or.inl ⟨rel, h1, h2⟩
      · exact Or.inr ⟨rel, h1, h2⟩

end

mutual

theorem createDir_copyEntry (ex : String → Bool) (c : FNode) (s t d : String) :
    Ev.createDirAll d ∈ copyEntry ex c s t → ex d = false := by
  cases c with
  | file n => intro h; simp [copyEntry] at h
  | dir n cs =>
    rw [copyEntry]
    exact createDir_copy_dir_recursive ex cs (pjoin s n) (pjoin t n) d

theorem createDir_copy_dir_recursive (ex : String → Bool) (cs : List FNode)
    (s t d : String) :
    Ev.createDirAll d ∈ copy_dir_recursive ex cs s t → ex d = false := by
  rw [copy_dir_recursive]
  intro h
  rcases List.mem_append.mp h with h | h
  · split at h
    · simp at h
    · simp only [List.mem_singleton] at h
      injection h with h
      subst h
      next hx => simpa using hx
  · exact createDir_copyEntries ex cs s t d h

theorem createDir_copyEntries (ex : String → Bool) (cs : List FNode)
    (s t d : String) :
    Ev.createDirAll d ∈ copyEntries ex cs s t → ex d = false := by
  cases cs with
  | nil => intro h; rw [copyEntries] at h; simp at h
  | cons c rest =>
    rw [copyEntries]
    intro h
    rcases List.mem_append.mp h with h | h
    · exact createDir_copyEntry ex c s t d h
    · exact createDir_copyEntries ex rest s t d h

end

theorem copy_plugin_files_eq_requestedFormatsPlacer (ex : String → Bool)
    (tree : List FNode) (sourceDir destDir profile : String) :
    copy_plugin_files true ex tree sourceDir destDir profile =
      requestedFormatsPlacer ex tree sourceDir destDir profile ["VST3", "CLAP"] := by
  unfold copy_plugin_files requestedFormatsPlacer
  rw [if_pos rfl]
  simp only [copyFormats]
  rcases h1 : copyFormat (fun p => ex p || p == destDir) tree sourceDir destDir
      profile "VST3" with e1 | evs1
  · rfl
  · rcases h2 : copyFormat (fun p => ex p || p == destDir) tree sourceDir destDir
        profile "CLAP" with e2 | evs2
    · rfl
    · simp

theorem nodup_insertPath (p : String) (ps : List String) (h : ps.Nodup) :
    (insertPath p ps).Nodup := by
  unfold insertPath
  split
  · exact h
  · next hp => simpa [List.nodup_append, hp] using h

theorem nodup_foldl_insertPath (ts : List String) :
    ∀ acc : List String, acc.Nodup →
      (ts.foldl (fun a q => insertPath q a) acc).Nodup := by
  induction ts with
  | nil => intro acc h; simpa using h
  | cons t ts ih =>
    intro acc h
    rw [List.foldl_cons]
    exact ih _ (nodup_insertPath t acc h)

theorem mem_dedupUnion (xs ys : List String) (p : String) :
    p ∈ dedupUnion xs ys ↔ p ∈ xs ∨ p ∈ ys := by
  unfold dedupUnion
  rw [mem_foldl_insertPath]
  simp

theorem nodup_dedupUnion (xs ys : List String) : (dedupUnion xs ys).Nodup :=
  nodup_foldl_insertPath (xs ++ ys) [] List.nodup_nil

theorem bumb_ok_shape {w : World} {root crateName normalized : String}
    {release : Bool} {ulib : String} {libs : List String}
    (h : (build_universal_macos_binary w root crateName normalized release).2 =
      .ok (ulib, libs)) :
    libs = dedupUnion
      (parse_native_libraries false w.fs (w.cargoOutFor "x86_64-apple-darwin").stdoutLines
        (w.cargoOutFor "x86_64-apple-darwin").stderrLines crateName)
      (parse_native_libraries false w.fs (w.cargoOutFor "aarch64-apple-darwin").stdoutLines
        (w.cargoOutFor "aarch64-apple-darwin").stderrLines crateName) ∧
    ulib = pjoin (pjoin (pjoin root "target") "universal")
      ("lib" ++ normalized ++ ".a") := by
  unfold build_universal_macos_binary at h
  by_cases h1 : w.rustupOK = true
  case neg =>
    simp only [Bool.not_eq_true] at h1
    simp [h1] at h
  simp only [h1] at h
  by_cases h2 : (w.cargoOutFor "x86_64-apple-darwin").success = true
  case neg =>
    simp only [Bool.not_eq_true] at h2
    simp [h2] at h
  simp only [h2] at h
  by_cases h3 : (w.cargoOutFor "aarch64-apple-darwin").success = true
  case neg =>
    simp only [Bool.not_eq_true] at h3
    simp [h3] at h
  simp only [h3] at h
  by_cases h4 : w.lipoCreateOK = true
  case neg =>
    simp only [Bool.not_eq_true] at h4
    simp [h4] at h
  simp only [h4] at h
  simp at h
  exact ⟨h.2.symm, h.1.symm⟩

theorem buildStep_macos (w : World) (root : String) (a : BuildArgs) :
    buildStep Platform.macos w root a =
      build_universal_macos_binary w root a.crate_name
        (String.mk (replaceDash a.crate_name.data)) a.release := by
  unfold buildStep
  rw [if_pos rfl]


/-!
Claim theorems.
-/

/-- C1. The Diagnostic Scanner collects a search directory from a line
exactly when that line carries a native-search marker with an existing
extracted token and lies at or after a line carrying the per-crate
compilation marker (hyphens normalized to underscores) of the same stream;
markers before the section starts are ignored, the flag is never cleared
within a stream, the two streams are scanned with independent flags, and
their results are unioned. -/
theorem scanner_section_collection (fs : FileSys) (crateName : String)
    (stdoutLines stderrLines : List String) (p : String) :
    p ∈ collectSearchPaths fs crateName stdoutLines stderrLines ↔
      streamSpec fs crateName stdoutLines p ∨ streamSpec fs crateName stderrLines p := by
  unfold collectSearchPaths scanStream streamSpec
  rw [mem_scanFold, mem_scanFold]
  simp

/-- C4. The Library Resolver returns exactly the regular files of the
existing search directories that match the host platform's naming
convention, with no duplicates (paths are modelled in canonical spelling,
directory listings are duplicate-free and list only their own entries), and
supplying the same search path repeatedly does not change the result. -/
theorem resolver_returns_matching_files (windows : Bool) (fs : FileSys)
    (dirs : List String) (q d : String)
    (hnd : dirs.Nodup)
    (hent : ∀ d2, (fs.entries d2).Nodup)
    (hown : ∀ d2 q2, q2 ∈ fs.entries d2 → dirPart q2 = d2) :
    (q ∈ findLibraryFiles windows fs dirs ↔
      ∃ d2 ∈ dirs, (fs.pathExists d2 && fs.isDir d2) = true ∧
        q ∈ fs.entries d2 ∧ (fs.isFile q && isLibFile windows q) = true) ∧
    (findLibraryFiles windows fs dirs).Nodup ∧
    findLibraryFiles windows fs (insertPath d (insertPath d dirs)) =
      findLibraryFiles windows fs (insertPath d dirs) := by
  refine ⟨mem_findLibraryFiles windows fs dirs q, ?_, by rw [insertPath_idem]⟩
  unfold findLibraryFiles
  exact nodup_findFold windows fs hent hown dirs [] hnd List.nodup_nil (by simp)

/-- Witness for C4: the sample file system, with the library directory
supplied twice, yields exactly the matching library file, without
duplicates. -/
theorem resolver_returns_matching_files_witness :
    (findLibraryFiles false fsA ["/lib", "/missing"]).Nodup ∧
    findLibraryFiles false fsA (insertPath "/lib" (insertPath "/lib" ["/lib", "/missing"])) =
      findLibraryFiles false fsA (insertPath "/lib" ["/lib", "/missing"]) ∧
    findLibraryFiles false fsA ["/lib", "/missing"] = ["/lib/liba.a"] := by
  have h := resolver_returns_matching_files false fsA ["/lib", "/missing"]
    "/lib/liba.a" "/lib" (by decide)
    (by
      intro d2
      dsimp [fsA]
      split
      · decide
      · exact List.nodup_nil)
    (by
      intro d2 q2 h2
      dsimp [fsA] at h2
      split at h2
      · next hc =>
        obtain rfl : d2 = "/lib" := by simpa using hc
        simp only [List.mem_cons, List.not_mem_nil, or_false] at h2
        rcases h2 with rfl | rfl <;> decide
      · simp at h2)
  exact ⟨h.2.1, h.2.2, by decide⟩

/-- Counterexample for C5: an extracted token that exists on disk as a
regular file, not a directory, is nevertheless added to the search-path
set, against the claim that only existing directories are kept. -/
theorem scanner_collects_existing_nondirectory :
    "/xfile" ∈ collectSearchPaths fsA "c"
      ["rustc --crate-name c foo", "cc -L native=/xfile bar"] [] ∧
    fsA.isDir "/xfile" = false := by
  constructor <;> decide

/-- C5 amended. Every token the Scanner collects is the text following a
native-search marker truncated at the first whitespace or backtick with
surrounding double quotes stripped, kept only when it denotes an existing
path on disk (directory or not); a marker whose token does not exist
(including the empty token) is silently skipped. -/
theorem scanner_token_extraction (fs : FileSys) (line p : String)
    (part : List Char)
    (hp : p ∈ lineTokens fs line)
    (hpart : part ∈ (splitOnChars nativeMarker.data line.data).drop 1) :
    (fs.pathExists p = true ∧
     (∀ ch ∈ p.data, isStopChar ch = false) ∧
     (∀ a, p.data.head? = some a → (a == '"') = false) ∧
     (∀ a, p.data.getLast? = some a → (a == '"') = false)) ∧
    (fs.pathExists (cleanPath part) = true → cleanPath part ∈ lineTokens fs line) ∧
    (fs.pathExists (cleanPath part) = false → cleanPath part ∉ lineTokens fs line) := by
  refine ⟨mem_lineTokens_shape hp, ?_, ?_⟩
  · intro hex
    unfold lineTokens
    rw [List.mem_filterMap]
    exact ⟨part, hpart, by simp [hex]⟩
  · intro hex hmem
    have := (mem_lineTokens_shape hmem).1
    rw [this] at hex
    exact absurd hex (by simp)

/-- Witness for C5: on a concrete diagnostic line, the collected token
exists, carries no delimiter characters, is quote-free at both ends, and
the non-existing token of the second marker is dropped. -/
theorem scanner_token_extraction_witness :
    "/lib" ∈ lineTokens fsA " -L native=\"/lib\" x -L native=/nope" ∧
    ("/nope".data ∈
      (splitOnChars nativeMarker.data " -L native=\"/lib\" x -L native=/nope".data).drop 1) ∧
    fsA.pathExists "/lib" = true ∧
    cleanPath "/nope".data ∉ lineTokens fsA " -L native=\"/lib\" x -L native=/nope" := by
  refine ⟨by decide, by decide, ?_, ?_⟩
  · exact (scanner_token_extraction fsA " -L native=\"/lib\" x -L native=/nope"
      "/lib" "/nope".data (by decide) (by decide)).1.1
  · exact (scanner_token_extraction fsA " -L native=\"/lib\" x -L native=/nope"
      "/lib" "/nope".data (by decide) (by decide)).2.2 (by decide)


/-- Counterexample for C2: the build subcommand's option surface has no
`--formats` option, and a concrete configure invocation carries no formats
entry among its key/value arguments. -/
theorem no_formats_in_cli_or_configure :
    ("--formats" ∉ buildOptionNames) ∧
    ((configureArgs "/r/xtask/cmake" "/r/target/cmake-build" "gain-example"
        "/r/target/debug/libgain_example.a" "b" "/r/target/cmake-assets" false
        ["/lib/liba.a"]).all fun s => !containsSubstr s "FORMATS") = true := by
  exact ⟨by decide, by decide⟩

/-- C2 amended. The build command surface accepts no formats option, and
every configure invocation the pipeline ever issues passes exactly the
flattened key/value configuration: source and build directory, project name,
static library path, bundle id, output directory, install flag, and the
semicolon-joined native-library list when non-empty — with no formats
entry. -/
theorem configure_passes_flattened_config (plat : Platform) (w : World)
    (root : String) (a : BuildArgs) (args : List String)
    (h : Ev.cmakeConfigure args ∈ (build_plugin plat w root a).1) :
    ("--formats" ∉ buildOptionNames) ∧
    ∃ staticLib libs,
      (buildStep plat w root a).2 = .ok (staticLib, libs) ∧
      args = configureArgs (pjoin root "xtask/cmake") (pjoin root "target/cmake-build")
        a.crate_name staticLib a.bundle_id (pjoin root "target/cmake-assets")
        a.install libs := by
  refine ⟨by decide, ?_⟩
  have h2 : Ev.cmakeConfigure args ∈ (pipelineAfterClean plat w root a).1 := by
    have hsplit : (build_plugin plat w root a).1 =
        cleanEvents root a.clean ++ (pipelineAfterClean plat w root a).1 := rfl
    rw [hsplit] at h
    rcases List.mem_append.mp h with hc | hp
    · unfold cleanEvents at hc
      split at hc <;> simp at hc
    · exact hp
  obtain ⟨sl, libs, hok, _, hargs⟩ :=
    pipelineAfterClean_configure_shape plat w root a args h2
  exact ⟨sl, libs, hok, hargs⟩

/-- Witness for C2 amended: a concrete run issues exactly the flattened
configure invocation, and the option surface has no formats option. -/
theorem configure_passes_flattened_config_witness :
    ("--formats" ∉ buildOptionNames) ∧
    Ev.cmakeConfigure (configureArgs "/r/xtask/cmake" "/r/target/cmake-build"
        "gain-example" "/r/target/debug/libgain_example.a" "b"
        "/r/target/cmake-assets" false [])
      ∈ (build_plugin Platform.other wStop "/r" aB).1 := by
  have hmem : Ev.cmakeConfigure (configureArgs "/r/xtask/cmake" "/r/target/cmake-build"
      "gain-example" "/r/target/debug/libgain_example.a" "b"
      "/r/target/cmake-assets" false [])
      ∈ (build_plugin Platform.other wStop "/r" aB).1 := by decide
  exact ⟨(configure_passes_flattened_config Platform.other wStop "/r" aB _ hmem).1, hmem⟩

/-- Counterexample for C3: with `clean` requested, the run removes
`target/plugins` but never removes the profile-scoped final plugin output
directory `target/<profile>/plugins`, which it goes on to create. -/
theorem clean_misses_profile_output_dir :
    Ev.removeDirAll "/r/target/plugins" ∈ (build_plugin Platform.other wStop "/r" aB).1 ∧
    Ev.createDirAll "/r/target/debug/plugins" ∈ (build_plugin Platform.other wStop "/r" aB).1 ∧
    Ev.removeDirAll "/r/target/debug/plugins" ∉ (build_plugin Platform.other wStop "/r" aB).1 := by
  exact ⟨by decide, by decide, by decide⟩

/-- C3 amended. When `clean` is requested, the directories
`target/cmake-build`, `target/cmake-assets` and `target/plugins` are removed
first, before any other step; nothing after the clean step ever removes a
directory, so with `clean` off the run performs no removal at all and is
additive. -/
theorem build_plugin_removals (plat : Platform) (w : World) (root : String)
    (a : BuildArgs) :
    (build_plugin plat w root a).1 =
      cleanEvents root a.clean ++ (pipelineAfterClean plat w root a).1 ∧
    (∀ e ∈ (pipelineAfterClean plat w root a).1, isRemoveEv e = false) ∧
    (a.clean = false → ∀ e ∈ (build_plugin plat w root a).1, isRemoveEv e = false) := by
  refine ⟨rfl, pipelineAfterClean_no_remove plat w root a, ?_⟩
  intro hclean e he
  have hsplit : (build_plugin plat w root a).1 =
      cleanEvents root a.clean ++ (pipelineAfterClean plat w root a).1 := rfl
  rw [hsplit, hclean] at he
  rw [show cleanEvents root false = [] from rfl, List.nil_append] at he
  exact pipelineAfterClean_no_remove plat w root a e he

/-- Witness for C3 amended: on a concrete clean run the trace decomposes into
the clean prefix and a removal-free rest. -/
theorem build_plugin_removals_witness :
    (build_plugin Platform.other wStop "/r" aB).1 =
      cleanEvents "/r" true ++ (pipelineAfterClean Platform.other wStop "/r" aB).1 ∧
    ((pipelineAfterClean Platform.other wStop "/r" aB).1.all fun e => !isRemoveEv e) = true := by
  have h := build_plugin_removals Platform.other wStop "/r" aB
  refine ⟨h.1, ?_⟩
  rw [List.all_eq_true]
  intro e he
  simpa using h.2.1 e he

/-- C6. On the single-architecture path, a failing toolchain invocation
aborts the run with a build failure carrying the captured stderr, and a
reported-successful build whose expected static library — named per platform
convention from the normalized crate name and profile — is absent aborts
with an artifact-not-found error at that path. -/
theorem per_arch_build_errors (plat : Platform) (w : World) (root : String)
    (a : BuildArgs) (hplat : plat ≠ Platform.macos) :
    (w.cargoOut.success = false →
      (build_plugin plat w root a).2 = .error (.buildFailure w.cargoOut.stderrLines)) ∧
    (w.cargoOut.success = true →
      w.fs.pathExists (staticLibPath plat root a) = false →
      (build_plugin plat w root a).2 =
        .error (.artifactNotFound (staticLibPath plat root a))) ∧
    staticLibPath Platform.windows root a =
      pjoin (pjoin (pjoin root "target") (if a.release then "release" else "debug"))
        (String.mk (replaceDash a.crate_name.data) ++ ".lib") ∧
    staticLibPath Platform.other root a =
      pjoin (pjoin (pjoin root "target") (if a.release then "release" else "debug"))
        ("lib" ++ String.mk (replaceDash a.crate_name.data) ++ ".a") := by
  refine ⟨?_, ?_, rfl, rfl⟩
  · intro hfail
    show (pipelineAfterClean plat w root a).2 = _
    unfold pipelineAfterClean
    rw [buildStep_regular_fail plat w root a hplat hfail]
  · intro hok hmiss
    show (pipelineAfterClean plat w root a).2 = _
    unfold pipelineAfterClean
    rw [buildStep_regular_ok plat w root a hplat hok]
    simp [hmiss]

/-- Witness for C6: the cargo-failure world yields a build failure carrying
stderr, and the missing-artifact world yields an artifact-not-found error at
the conventional path. -/
theorem per_arch_build_errors_witness :
    (build_plugin Platform.other wCargoFail "/r" aB).2 =
      .error (.buildFailure ["boom"]) ∧
    (build_plugin Platform.other wNoArt "/r" aB).2 =
      .error (.artifactNotFound "/r/target/debug/libgain_example.a") := by
  constructor
  · exact (per_arch_build_errors Platform.other wCargoFail "/r" aB (by decide)).1 rfl
  · exact (per_arch_build_errors Platform.other wNoArt "/r" aB (by decide)).2.1 rfl (by decide)

/-- C7. When any of the three packaging-template files is absent, the run
ends in an error, no packaging-system invocation (neither configure nor
build) ever appears in the trace, and — when the pipeline reaches the check
(build succeeded, artifact present) — the error is precisely the
missing-template configuration error. -/
theorem missing_templates_abort (plat : Platform) (w : World) (root : String)
    (a : BuildArgs)
    (hmiss : w.fs.pathExists (pjoin (pjoin root "xtask/cmake") "CMakeLists.txt") = false ∨
      w.fs.pathExists (pjoin (pjoin root "xtask/cmake") "clap_entry.cpp") = false ∨
      w.fs.pathExists (pjoin (pjoin root "xtask/cmake") "clap_entry.h") = false) :
    (∃ err, (build_plugin plat w root a).2 = .error err) ∧
    (∀ e ∈ (build_plugin plat w root a).1, isCmakeEv e = false) ∧
    (plat ≠ Platform.macos → w.cargoOut.success = true →
      w.fs.pathExists (staticLibPath plat root a) = true →
      (build_plugin plat w root a).2 = .error .missingTemplates) := by
  obtain ⟨herr, hnc⟩ := pipelineAfterClean_missing_templates plat w root a hmiss
  refine ⟨herr, ?_, ?_⟩
  · intro e he
    have hsplit : (build_plugin plat w root a).1 =
        cleanEvents root a.clean ++ (pipelineAfterClean plat w root a).1 := rfl
    rw [hsplit] at he
    rcases List.mem_append.mp he with hc | hp
    · unfold cleanEvents at hc
      split at hc
      · simp only [List.mem_cons, List.not_mem_nil, or_false] at hc
        rcases hc with rfl | rfl | rfl <;> rfl
      · simp at hc
    · exact hnc e hp
  · intro hplat hok hart
    have htmpl : (!w.fs.pathExists (pjoin (pjoin root "xtask/cmake") "CMakeLists.txt")
        || !w.fs.pathExists (pjoin (pjoin root "xtask/cmake") "clap_entry.cpp")
        || !w.fs.pathExists (pjoin (pjoin root "xtask/cmake") "clap_entry.h")) = true := by
      rcases hmiss with hm | hm | hm <;> simp [hm]
    show (pipelineAfterClean plat w root a).2 = _
    unfold pipelineAfterClean
    rw [buildStep_regular_ok plat w root a hplat hok]
    simp [hart, htmpl]

/-- Witness for C7: with `clap_entry.h` missing, the concrete run fails with
the missing-template error and its trace contains no cmake invocation. -/
theorem missing_templates_abort_witness :
    (build_plugin Platform.other wNoTmpl "/r" aB).2 = .error .missingTemplates ∧
    ((build_plugin Platform.other wNoTmpl "/r" aB).1.all fun e => !isCmakeEv e) = true := by
  constructor
  · exact (missing_templates_abort Platform.other wNoTmpl "/r" aB
      (Or.inr (Or.inr (by decide)))).2.2 (by decide) rfl (by decide)
  · decide


/-- Packaging output tree holding only `CLAP/debug/plugin.clap`. -/
def treeCLAP : List FNode :=
  [FNode.dir "CLAP" [FNode.dir "debug" [FNode.file "plugin.clap"]]]

/-- Packaging output tree holding only `AUV2/debug/x.component`. -/
def treeAUV2 : List FNode :=
  [FNode.dir "AUV2" [FNode.dir "debug" [FNode.file "x.component"]]]

/-- File system of a healthy macOS run: the universal static library and the
three packaging templates exist. -/
def fsE : FileSys :=
  { fsB with pathExists := fun p =>
      p == "/r/target/universal/libgain_example.a" ||
      p == "/r/xtask/cmake/CMakeLists.txt" || p == "/r/xtask/cmake/clap_entry.cpp" ||
      p == "/r/xtask/cmake/clap_entry.h" }

/-- macOS world that reaches the packaging build phase and stops there. -/
def wMac : World := { wStop with fs := fsE }

/-- macOS world whose lipo fusion step fails. -/
def wLipoFail : World := { wMac with lipoCreateOK := false }

/-- Counterexample for C8: with the spec's requested-format iteration (default
request `CLAP,VST3,AUV2`), an `AUV2/<profile>` artifact would be copied, but
the code iterates the fixed list `[VST3, CLAP]` and copies nothing. -/
theorem auv2_dropped_by_fixed_format_list :
    requestedFormatsPlacer (fun _ => false) treeAUV2 "s" "d" "debug"
      ["CLAP", "VST3", "AUV2"] =
      .ok [Ev.createDirAll "d", Ev.copyFile "s/AUV2/debug/x.component" "d/x.component"] ∧
    copy_plugin_files true (fun _ => false) treeAUV2 "s" "d" "debug" =
      .ok [Ev.createDirAll "d"] := by
  constructor <;>
    simp [requestedFormatsPlacer, copyFormats, copy_plugin_files, copyFormat,
      formatSubdir, lookup1, nodeName, copyEntries, copyEntry, copy_dir_recursive,
      treeAUV2, pjoin]

/-- C8 amended. Under the nested layout the Placer iterates the fixed format
list `[VST3, CLAP]` (not a requested-format list): a format whose
`<FORMAT>/<profile>` subdirectory does not exist is silently skipped, the
subdirectory's immediate files are copied into the destination root, nested
directories are copied recursively preserving their relative structure, and
destination directories are created only when missing. -/
theorem nested_layout_placement (ex : String → Bool) (tree : List FNode)
    (sourceDir destDir profile fmt a b d n : String) (cs : List FNode) :
    copy_plugin_files true ex tree sourceDir destDir profile =
      requestedFormatsPlacer ex tree sourceDir destDir profile ["VST3", "CLAP"] ∧
    (formatSubdir tree fmt profile = none →
      copyFormat (fun p => ex p || p == destDir) tree sourceDir destDir profile fmt =
        .ok []) ∧
    (formatSubdir tree fmt profile = some (.dir n cs) →
      (Ev.copyFile a b ∈ copyEntries (fun p => ex p || p == destDir) cs
          (pjoin (pjoin sourceDir fmt) profile) destDir ↔
        ∃ rel ∈ filesOfList cs,
          a = joinSegs (pjoin (pjoin sourceDir fmt) profile) rel ∧
          b = joinSegs destDir rel)) ∧
    (Ev.createDirAll d ∈ copyEntries (fun p => ex p || p == destDir) cs
        (pjoin (pjoin sourceDir fmt) profile) destDir →
      (ex d || d == destDir) = false) := by
  refine ⟨copy_plugin_files_eq_requestedFormatsPlacer ex tree sourceDir destDir profile,
    ?_, ?_, ?_⟩
  · intro h
    unfold copyFormat
    rw [h]
  · intro _
    exact mem_copyEntries_iff _ cs _ destDir a b
  · exact createDir_copyEntries _ cs _ destDir d

/-- Witness for C8: with only `CLAP/debug/plugin.clap` present, the run
copies exactly that file into the destination root (and no VST3 entry), and
the absent VST3 subdirectory is skipped. -/
theorem nested_layout_placement_witness :
    copy_plugin_files true (fun _ => false) treeCLAP "s" "d" "debug" =
      .ok [Ev.createDirAll "d", Ev.copyFile "s/CLAP/debug/plugin.clap" "d/plugin.clap"] ∧
    copyFormat (fun p => (fun _ : String => false) p || p == "d") treeCLAP
      "s" "d" "debug" "VST3" = .ok [] := by
  constructor
  · simp [copy_plugin_files, copyFormat, formatSubdir, lookup1, nodeName,
      copyEntries, copyEntry, copy_dir_recursive, treeCLAP, pjoin]
  · exact (nested_layout_placement (fun _ => false) treeCLAP "s" "d" "debug" "VST3"
      "x" "y" "z" "n" []).2.1 (by rfl)

/-- C9. On macOS, the native-library set returned next to the universal
static library — and passed verbatim to the packaging configure invocation —
is the deduplicated union of the libraries discovered by the x86-64 build
and those discovered by the ARM64 build. -/
theorem macos_combined_native_libs (w : World) (root : String) (a : BuildArgs)
    (args : List String) (p ulib : String) (libs : List String)
    (hb : (build_universal_macos_binary w root a.crate_name
        (String.mk (replaceDash a.crate_name.data)) a.release).2 = .ok (ulib, libs))
    (hcfg : Ev.cmakeConfigure args ∈ (build_plugin Platform.macos w root a).1) :
    libs.Nodup ∧
    (p ∈ libs ↔
      p ∈ parse_native_libraries false w.fs
        (w.cargoOutFor "x86_64-apple-darwin").stdoutLines
        (w.cargoOutFor "x86_64-apple-darwin").stderrLines a.crate_name ∨
      p ∈ parse_native_libraries false w.fs
        (w.cargoOutFor "aarch64-apple-darwin").stdoutLines
        (w.cargoOutFor "aarch64-apple-darwin").stderrLines a.crate_name) ∧
    args = configureArgs (pjoin root "xtask/cmake") (pjoin root "target/cmake-build")
      a.crate_name ulib a.bundle_id (pjoin root "target/cmake-assets")
      a.install libs := by
  obtain ⟨hlibs, hulib⟩ := bumb_ok_shape hb
  have h2 : Ev.cmakeConfigure args ∈ (pipelineAfterClean Platform.macos w root a).1 := by
    have hsplit : (build_plugin Platform.macos w root a).1 =
        cleanEvents root a.clean ++ (pipelineAfterClean Platform.macos w root a).1 := rfl
    rw [hsplit] at hcfg
    rcases List.mem_append.mp hcfg with hc | hp
    · unfold cleanEvents at hc
      split at hc <;> simp at hc
    · exact hp
  obtain ⟨sl, libs2, hok, _, hargs⟩ :=
    pipelineAfterClean_configure_shape Platform.macos w root a args h2
  rw [buildStep_macos, hb] at hok
  injection hok with hpair
  cases hpair
  refine ⟨?_, ?_, hargs⟩
  · rw [hlibs]
    exact nodup_dedupUnion _ _
  · rw [hlibs]
    exact mem_dedupUnion _ _ p

/-- Witness for C9: a concrete macOS run returns the (empty) deduplicated
union of both architectures' discoveries and passes it to configure. -/
theorem macos_combined_native_libs_witness :
    ([] : List String).Nodup ∧
    ("/q" ∈ ([] : List String) ↔
      "/q" ∈ parse_native_libraries false wMac.fs
        (wMac.cargoOutFor "x86_64-apple-darwin").stdoutLines
        (wMac.cargoOutFor "x86_64-apple-darwin").stderrLines "gain-example" ∨
      "/q" ∈ parse_native_libraries false wMac.fs
        (wMac.cargoOutFor "aarch64-apple-darwin").stdoutLines
        (wMac.cargoOutFor "aarch64-apple-darwin").stderrLines "gain-example") ∧
    configureArgs "/r/xtask/cmake" "/r/target/cmake-build" "gain-example"
        "/r/target/universal/libgain_example.a" "b" "/r/target/cmake-assets"
        false [] =
      configureArgs (pjoin "/r" "xtask/cmake") (pjoin "/r" "target/cmake-build")
        "gain-example" "/r/target/universal/libgain_example.a" "b"
        (pjoin "/r" "target/cmake-assets") false [] :=
  macos_combined_native_libs wMac "/r" aB
    (configureArgs "/r/xtask/cmake" "/r/target/cmake-build" "gain-example"
      "/r/target/universal/libgain_example.a" "b" "/r/target/cmake-assets" false [])
    "/q" "/r/target/universal/libgain_example.a" [] (by rfl) (by decide)

/-- C10. After a successful fusion, the architecture-info query runs but its
status is never consulted: the result does not depend on it and the step
returns successfully regardless, while a failing fusion (create) step aborts
with the fusion error. -/
theorem lipo_info_nonfatal (w : World) (root crateName normalized : String)
    (release : Bool)
    (h1 : w.rustupOK = true)
    (h2 : (w.cargoOutFor "x86_64-apple-darwin").success = true)
    (h3 : (w.cargoOutFor "aarch64-apple-darwin").success = true) :
    (w.lipoCreateOK = true →
      (build_universal_macos_binary w root crateName normalized release).2 =
        .ok (pjoin (pjoin (pjoin root "target") "universal")
            ("lib" ++ normalized ++ ".a"),
          dedupUnion
            (parse_native_libraries false w.fs
              (w.cargoOutFor "x86_64-apple-darwin").stdoutLines
              (w.cargoOutFor "x86_64-apple-darwin").stderrLines crateName)
            (parse_native_libraries false w.fs
              (w.cargoOutFor "aarch64-apple-darwin").stdoutLines
              (w.cargoOutFor "aarch64-apple-darwin").stderrLines crateName)) ∧
      Ev.lipoInfo (pjoin (pjoin (pjoin root "target") "universal")
          ("lib" ++ normalized ++ ".a"))
        ∈ (build_universal_macos_binary w root crateName normalized release).1) ∧
    (w.lipoCreateOK = false →
      (build_universal_macos_binary w root crateName normalized release).2 =
        .error .fusionFailure) ∧
    build_universal_macos_binary { w with lipoInfoOK := false } root crateName
        normalized release =
      build_universal_macos_binary { w with lipoInfoOK := true } root crateName
        normalized release := by
  refine ⟨?_, ?_, rfl⟩
  · intro h4
    unfold build_universal_macos_binary
    simp [h1, h2, h3, h4]
  · intro h4
    unfold build_universal_macos_binary
    simp [h1, h2, h3, h4]

/-- Witness for C10: the concrete macOS world (whose info query fails)
still returns success and runs the info query, while the fusion-failure
world aborts with the fusion error. -/
theorem lipo_info_nonfatal_witness :
    (build_universal_macos_binary wMac "/r" "gain-example" "gain_example" false).2 =
      .ok ("/r/target/universal/libgain_example.a", []) ∧
    Ev.lipoInfo "/r/target/universal/libgain_example.a"
      ∈ (build_universal_macos_binary wMac "/r" "gain-example" "gain_example" false).1 ∧
    (build_universal_macos_binary wLipoFail "/r" "gain-example" "gain_example" false).2 =
      .error .fusionFailure ∧
    wMac.lipoInfoOK = false := by
  have h := lipo_info_nonfatal wMac "/r" "gain-example" "gain_example" false rfl rfl rfl
  have h5 := lipo_info_nonfatal wLipoFail "/r" "gain-example" "gain_example" false rfl rfl rfl
  exact ⟨(h.1 rfl).1, (h.1 rfl).2, h5.2.1 rfl, rfl⟩

end Xtask
